import Mathlib

/-!
# Verification of the fuel-core p2p postcard codec layer

A shallow embedding of `crates/services/p2p/src/codecs/postcard.rs` and of the
version-aware request/response message handler it configures.  The handler's
`write_response` / `read_response` logic and the V1/V2 message schemas live in
sibling modules of the repository; they are modelled here from the design
specification (each such definition carries a doc comment starting with
`Modelled from the spec:`).  The postcard serialization library is an external
collaborator; its wire discipline (varint integers, index-tagged enums,
`0`/`1` tags for options and results) is embedded concretely over token
streams whose payload elements stay opaque.
-/

namespace FuelP2P

/-- Modelled from the spec: the negotiated protocol version tag, an enum with
exactly two live values `V1` and `V2` (`RequestResponseProtocol` in the
repository, not under the given slice). -/
inductive RequestResponseProtocol where
  | V1
  | V2
deriving DecidableEq

/-- Modelled from the spec: the enumerated response error codes
(`ResponseMessageErrorCode` in the repository, not under the given slice).
One designated member, `protocolV1EmptyResponse`, represents an absent reply
from a V1 peer; `requestedRangeTooLarge` is the specific code exercised by the
tests; `unknown` stands for the extensible remainder of the enumeration. -/
inductive ResponseMessageErrorCode where
  | protocolV1EmptyResponse
  | requestedRangeTooLarge
  | unknown
deriving DecidableEq

/-- A wire element: either an envelope byte (tags, discriminants, codes) or an
opaque domain payload, which this layer never inspects. -/
inductive Token (α : Type) where
  | byte : Nat → Token α
  | pay : α → Token α
deriving DecidableEq

/-- Modelled from the spec: the legacy V1 response schema — every response
field is wrapped in an optional value only; absence is the only failure
signal (`V1ResponseMessage` in the repository, not under the given slice). -/
inductive V1ResponseMessage (α : Type) where
  | sealedHeaders : Option α → V1ResponseMessage α
  | transactions : Option α → V1ResponseMessage α
  | txPoolFullTransactions : Option α → V1ResponseMessage α
deriving DecidableEq

instance {ε α : Type} [DecidableEq ε] [DecidableEq α] : DecidableEq (Except ε α) :=
  fun x y =>
    match x, y with
    | .ok a, .ok b =>
      if h : a = b then .isTrue (congrArg Except.ok h)
      else .isFalse (fun hc => h (Except.ok.inj hc))
    | .error a, .error b =>
      if h : a = b then .isTrue (congrArg Except.error h)
      else .isFalse (fun hc => h (Except.error.inj hc))
    | .ok _, .error _ => .isFalse (fun hc => Except.noConfusion hc)
    | .error _, .ok _ => .isFalse (fun hc => Except.noConfusion hc)

/-- Modelled from the spec: the canonical V2 response schema — every response
field is wrapped in a result carrying either the payload or a response error
code (`V2ResponseMessage` in the repository, not under the given slice). -/
inductive V2ResponseMessage (α : Type) where
  | sealedHeaders : Except ResponseMessageErrorCode α → V2ResponseMessage α
  | transactions : Except ResponseMessageErrorCode α → V2ResponseMessage α
  | txPoolFullTransactions : Except ResponseMessageErrorCode α → V2ResponseMessage α
deriving DecidableEq

/-- The result carried by a canonical V2 response, independent of variant. -/
def V2ResponseMessage.result : V2ResponseMessage α → Except ResponseMessageErrorCode α
  | .sealedHeaders r => r
  | .transactions r => r
  | .txPoolFullTransactions r => r

/-- Replace the carried result, keeping the variant. -/
def V2ResponseMessage.withResult :
    V2ResponseMessage α → Except ResponseMessageErrorCode α → V2ResponseMessage α
  | .sealedHeaders _, r => .sealedHeaders r
  | .transactions _, r => .transactions r
  | .txPoolFullTransactions _, r => .txPoolFullTransactions r

/-- The optional payload carried by a legacy V1 response, independent of
variant. -/
def V1ResponseMessage.option : V1ResponseMessage α → Option α
  | .sealedHeaders o => o
  | .transactions o => o
  | .txPoolFullTransactions o => o

/-- Errors of the external postcard library, as observed through their display
text by the codec's error mapping. -/
inductive PostcardError where
  | serializeBufferFull
  | deserializeUnexpectedEnd
  | deserializeBadEncoding
deriving DecidableEq

/-- The display text of a postcard error (`e.to_string()` on the Rust side). -/
def PostcardError.display : PostcardError → String
  | .serializeBufferFull => "The serialization buffer is full"
  | .deserializeUnexpectedEnd => "Hit the end of buffer, expected more data"
  | .deserializeBadEncoding => "Found an invalid encoding while deserializing"

/-- The error kinds this layer distinguishes: `other` is the kind the codec
stamps on every postcard failure (`io::ErrorKind::Other`); the size-limit kind
marks a size-bound violation, surfaced distinctly per the spec. -/
inductive IoErrorKind where
  | other
  | sizeLimitExceeded
deriving DecidableEq

/-- An I/O-classified error: a kind plus a message, modelling `io::Error`. -/
structure IoError where
  kind : IoErrorKind
  msg : String
deriving DecidableEq

/-- The stateless postcard codec unit struct (`pub struct PostcardCodec`). -/
inductive PostcardCodec where
  | mk
deriving DecidableEq

/-- The underlying postcard format for a value type `α` over a stream of
`σ` elements: the external library's `to_allocvec` and `from_bytes`
entry points, which the codec in `postcard.rs` delegates to. -/
structure WireFormat (α : Type) (σ : Type) where
  to_allocvec : α → Except PostcardError (List σ)
  from_bytes : List σ → Except PostcardError α

/-- `impl Encode for PostcardCodec`: delegate to `postcard::to_allocvec` and
map any failure to an `io::Error` of kind `Other` whose message is the
postcard error's display text (postcard.rs lines 44-48). -/
def PostcardCodec.encode (_c : PostcardCodec) (f : WireFormat α σ) (value : α) :
    Except IoError (List σ) :=
  match f.to_allocvec value with
  | .ok bytes => .ok bytes
  | .error e => .error ⟨IoErrorKind.other, e.display⟩

/-- `impl Decode for PostcardCodec`: delegate to `postcard::from_bytes` and
map any failure to an `io::Error` of kind `Other` whose message is the
postcard error's display text (postcard.rs lines 57-60). -/
def PostcardCodec.decode (_c : PostcardCodec) (f : WireFormat α σ) (bytes : List σ) :
    Except IoError α :=
  match f.from_bytes bytes with
  | .ok value => .ok value
  | .error e => .error ⟨IoErrorKind.other, e.display⟩

/-- Postcard index of a response error code variant. -/
def ResponseMessageErrorCode.tag : ResponseMessageErrorCode → Nat
  | .protocolV1EmptyResponse => 0
  | .requestedRangeTooLarge => 1
  | .unknown => 2

/-- Decode a response error code from its postcard variant index. -/
def decodeErrorCode : Nat → Except PostcardError ResponseMessageErrorCode
  | 0 => .ok .protocolV1EmptyResponse
  | 1 => .ok .requestedRangeTooLarge
  | 2 => .ok .unknown
  | _ => .error .deserializeBadEncoding

/-- Postcard variant index of a V2 response message. -/
def V2ResponseMessage.tag : V2ResponseMessage α → Nat
  | .sealedHeaders _ => 0
  | .transactions _ => 1
  | .txPoolFullTransactions _ => 2

/-- Postcard variant index of a V1 response message. -/
def V1ResponseMessage.tag : V1ResponseMessage α → Nat
  | .sealedHeaders _ => 0
  | .transactions _ => 1
  | .txPoolFullTransactions _ => 2

/-- Modelled from the spec: postcard wire shape of a canonical V2 response —
variant index, then the result tag (`0` for `Ok` carrying the payload, `1`
for `Err` carrying the error code's variant index). -/
def encodeV2 : V2ResponseMessage α → List (Token α)
  | m =>
    match m.result with
    | .ok x => [Token.byte m.tag, Token.byte 0, Token.pay x]
    | .error c => [Token.byte m.tag, Token.byte 1, Token.byte c.tag]

/-- Modelled from the spec: postcard wire shape of a legacy V1 response —
variant index, then the option tag (`0` for `None`, `1` for `Some` carrying
the payload).  A V1-schema stream never contains an error code. -/
def encodeV1 : V1ResponseMessage α → List (Token α)
  | m =>
    match m.option with
    | none => [Token.byte m.tag, Token.byte 0]
    | some x => [Token.byte m.tag, Token.byte 1, Token.pay x]

/-- Rebuild a V2 response from its variant index and decoded result. -/
def mkV2 (t : Nat) (r : Except ResponseMessageErrorCode α) :
    Except PostcardError (V2ResponseMessage α) :=
  match t with
  | 0 => .ok (.sealedHeaders r)
  | 1 => .ok (.transactions r)
  | 2 => .ok (.txPoolFullTransactions r)
  | _ => .error .deserializeBadEncoding

/-- Rebuild a V1 response from its variant index and decoded option. -/
def mkV1 (t : Nat) (o : Option α) : Except PostcardError (V1ResponseMessage α) :=
  match t with
  | 0 => .ok (.sealedHeaders o)
  | 1 => .ok (.transactions o)
  | 2 => .ok (.txPoolFullTransactions o)
  | _ => .error .deserializeBadEncoding

/-- Modelled from the spec: decode a canonical V2 response from a complete
wire stream; malformed, truncated or trailing input is rejected. -/
def decodeV2 (ts : List (Token α)) : Except PostcardError (V2ResponseMessage α) :=
  match ts with
  | [Token.byte t, Token.byte 0, Token.pay x] => mkV2 t (.ok x)
  | [Token.byte t, Token.byte 1, Token.byte c] =>
    match decodeErrorCode c with
    | .ok code => mkV2 t (.error code)
    | .error e => .error e
  | [] => .error .deserializeUnexpectedEnd
  | _ => .error .deserializeBadEncoding

/-- Modelled from the spec: decode a legacy V1 response from a complete wire
stream; malformed, truncated or trailing input is rejected. -/
def decodeV1 (ts : List (Token α)) : Except PostcardError (V1ResponseMessage α) :=
  match ts with
  | [Token.byte t, Token.byte 0] => mkV1 t none
  | [Token.byte t, Token.byte 1, Token.pay x] => mkV1 t (some x)
  | [] => .error .deserializeUnexpectedEnd
  | _ => .error .deserializeBadEncoding

/-- The postcard format instance for canonical V2 responses. -/
def v2Format (α : Type) : WireFormat (V2ResponseMessage α) (Token α) :=
  ⟨fun m => .ok (encodeV2 m), decodeV2⟩

/-- The postcard format instance for legacy V1 responses. -/
def v1Format (α : Type) : WireFormat (V1ResponseMessage α) (Token α) :=
  ⟨fun m => .ok (encodeV1 m), decodeV1⟩

/-- The request/response message handler over the postcard codec: the codec
plus the configured maximum response size.  The size comes from a
`NonZeroU32`, so it carries strict positivity. -/
structure RequestResponseMessageHandler where
  codec : PostcardCodec
  max_response_size : Nat
  max_response_size_pos : 0 < max_response_size

/-- `RequestResponseMessageHandler::new` (postcard.rs lines 17-24): store the
postcard codec and the given non-zero size bound. -/
def RequestResponseMessageHandler.new (max_block_size : Nat)
    (h : 0 < max_block_size) : RequestResponseMessageHandler :=
  ⟨PostcardCodec.mk, max_block_size, h⟩

/-- Modelled from the spec: the downgrade rule applied when encoding a
canonical value for a V1 peer — per field, `Ok(x) → Some(x)` and
`Err(_) → None`, discarding all error-code detail. -/
def v2ToV1 : V2ResponseMessage α → V1ResponseMessage α
  | .sealedHeaders (.ok x) => .sealedHeaders (some x)
  | .sealedHeaders (.error _) => .sealedHeaders none
  | .transactions (.ok x) => .transactions (some x)
  | .transactions (.error _) => .transactions none
  | .txPoolFullTransactions (.ok x) => .txPoolFullTransactions (some x)
  | .txPoolFullTransactions (.error _) => .txPoolFullTransactions none

/-- Modelled from the spec: the upgrade rule applied after decoding a V1
reply — per field, `Some(x) → Ok(x)` and
`None → Err(ProtocolV1EmptyResponse)`. -/
def v1ToV2 : V1ResponseMessage α → V2ResponseMessage α
  | .sealedHeaders (some x) => .sealedHeaders (.ok x)
  | .sealedHeaders none => .sealedHeaders (.error .protocolV1EmptyResponse)
  | .transactions (some x) => .transactions (.ok x)
  | .transactions none => .transactions (.error .protocolV1EmptyResponse)
  | .txPoolFullTransactions (some x) => .txPoolFullTransactions (.ok x)
  | .txPoolFullTransactions none =>
    .txPoolFullTransactions (.error .protocolV1EmptyResponse)

/-- The distinct size-bound violation error: a protocol violation, not a
codec (`Other`-kind) failure. -/
def maxSizeExceededError : IoError :=
  ⟨IoErrorKind.sizeLimitExceeded, "Response size exceeds the maximum allowed size"⟩

/-- Modelled from the spec: `write_response` — under V2 encode the canonical
value directly; under V1 first downgrade it to the legacy shape, then encode.
Fails with the distinct size-bound violation if the encoded length exceeds
the configured maximum; on success the returned list is the byte sequence
appended to the sink. -/
def write_response (h : RequestResponseMessageHandler)
    (protocol : RequestResponseProtocol) (response : V2ResponseMessage α) :
    Except IoError (List (Token α)) :=
  match protocol with
  | .V2 =>
    match h.codec.encode (v2Format α) response with
    | .error e => .error e
    | .ok bytes =>
      if bytes.length ≤ h.max_response_size then .ok bytes
      else .error maxSizeExceededError
  | .V1 =>
    match h.codec.encode (v1Format α) (v2ToV1 response) with
    | .error e => .error e
    | .ok bytes =>
      if bytes.length ≤ h.max_response_size then .ok bytes
      else .error maxSizeExceededError

/-- Modelled from the spec: `read_response` — reject input longer than the
configured maximum with the distinct size-bound violation; otherwise under V2
decode directly into the canonical shape, and under V1 decode into the legacy
shape and upgrade it to the canonical shape. -/
def read_response (h : RequestResponseMessageHandler)
    (protocol : RequestResponseProtocol) (bytes : List (Token α)) :
    Except IoError (V2ResponseMessage α) :=
  if h.max_response_size < bytes.length then .error maxSizeExceededError
  else
    match protocol with
    | .V2 => h.codec.decode (v2Format α) bytes
    | .V1 =>
      match h.codec.decode (v1Format α) bytes with
      | .ok m => .ok (v1ToV2 m)
      | .error e => .error e

/-- The byte sequence a response occupies on the wire under a protocol
version: the V2 encoding directly, or the V1 encoding of the downgrade. -/
def wireBytes (protocol : RequestResponseProtocol) (r : V2ResponseMessage α) :
    List (Token α) :=
  match protocol with
  | .V2 => encodeV2 r
  | .V1 => encodeV1 (v2ToV1 r)

/-- Modelled from the spec: a half-open `u32` range, as carried by range-style
requests.  `stop` is the exclusive upper end. -/
structure Range32 where
  start : Nat
  stop : Nat
deriving DecidableEq

/-- Modelled from the spec: the version-independent request schema
(`RequestMessage` in the repository, not under the given slice): range-style
requests for sealed headers and for transactions, and a request for full
transactions from the pool identified by a list of ids. -/
inductive RequestMessage where
  | sealedHeaders : Range32 → RequestMessage
  | transactions : Range32 → RequestMessage
  | txPoolFullTransactions : List Nat → RequestMessage
deriving DecidableEq

/-- A request is valid when its integers fit the `u32` fields they model. -/
def RequestMessage.valid : RequestMessage → Prop
  | .sealedHeaders r => r.start < 2 ^ 32 ∧ r.stop < 2 ^ 32
  | .transactions r => r.start < 2 ^ 32 ∧ r.stop < 2 ^ 32
  | .txPoolFullTransactions ids => ∀ i ∈ ids, i < 2 ^ 32

instance (m : RequestMessage) : Decidable m.valid := by
  cases m <;> simp [RequestMessage.valid] <;> infer_instance

/-- Postcard LEB128 varint encoding, fuelled for structural recursion: seven
payload bits per byte, low bits first, high bit set on every byte but the
last.  With fuel at least the value itself the fuel never runs out. -/
def varintEncodeAux : Nat → Nat → List Nat
  | 0, n => [n % 128]
  | fuel + 1, n =>
    if n < 128 then [n] else (n % 128 + 128) :: varintEncodeAux fuel (n / 128)

/-- Postcard LEB128 varint encoding of a natural number. -/
def varintEncode (n : Nat) : List Nat :=
  varintEncodeAux n n

/-- Postcard LEB128 varint decoding off the front of a byte stream, returning
the value and the unconsumed tail. -/
def varintDecode : List Nat → Except PostcardError (Nat × List Nat)
  | [] => .error .deserializeUnexpectedEnd
  | b :: rest =>
    if b < 128 then .ok (b, rest)
    else
      match varintDecode rest with
      | .ok (n, rest2) => .ok (b - 128 + 128 * n, rest2)
      | .error e => .error e

/-- Decode a fixed count of varints off the front of a byte stream. -/
def varintDecodeList : Nat → List Nat → Except PostcardError (List Nat × List Nat)
  | 0, bs => .ok ([], bs)
  | k + 1, bs =>
    match varintDecode bs with
    | .error e => .error e
    | .ok (n, bs1) =>
      match varintDecodeList k bs1 with
      | .error e => .error e
      | .ok (ns, bs2) => .ok (n :: ns, bs2)

/-- Modelled from the spec: postcard wire shape of a request — variant index,
then the fields: a range as two varints, a list as its varint length followed
by its elements as varints. -/
def encodeRequest : RequestMessage → List Nat
  | .sealedHeaders r => 0 :: (varintEncode r.start ++ varintEncode r.stop)
  | .transactions r => 1 :: (varintEncode r.start ++ varintEncode r.stop)
  | .txPoolFullTransactions ids =>
    2 :: (varintEncode ids.length ++ (ids.map varintEncode).flatten)

/-- Modelled from the spec: decode a request from a complete byte sequence;
malformed, truncated or trailing input is rejected. -/
def decodeRequest (bs : List Nat) : Except PostcardError RequestMessage :=
  match bs with
  | [] => .error .deserializeUnexpectedEnd
  | t :: rest =>
    match t with
    | 0 =>
      match varintDecodeList 2 rest with
      | .ok ([a, b], []) => .ok (.sealedHeaders ⟨a, b⟩)
      | .ok _ => .error .deserializeBadEncoding
      | .error e => .error e
    | 1 =>
      match varintDecodeList 2 rest with
      | .ok ([a, b], []) => .ok (.transactions ⟨a, b⟩)
      | .ok _ => .error .deserializeBadEncoding
      | .error e => .error e
    | 2 =>
      match varintDecode rest with
      | .ok (len, rest1) =>
        match varintDecodeList len rest1 with
        | .ok (ids, []) => .ok (.txPoolFullTransactions ids)
        | .ok _ => .error .deserializeBadEncoding
        | .error e => .error e
      | .error e => .error e
    | _ => .error .deserializeBadEncoding

/-- The postcard format instance for requests. -/
def requestFormat : WireFormat RequestMessage Nat :=
  ⟨fun m => .ok (encodeRequest m), decodeRequest⟩

/-- A format whose underlying encoder and decoder always fail, exercising the
codec's error-mapping path. -/
def failingFormat : WireFormat Unit Unit :=
  ⟨fun _ => .error .serializeBufferFull, fun _ => .error .deserializeUnexpectedEnd⟩

/-- The configured maximum request size used by the tests, in bytes. -/
def MAX_REQUEST_SIZE : Nat := 1024

/-! ## Round-trip and canonicality lemmas for the response wire shapes -/

theorem decodeErrorCode_tag (c : ResponseMessageErrorCode) :
    decodeErrorCode c.tag = .ok c := by
  cases c <;> rfl

theorem decodeErrorCode_ok {c : Nat} {code : ResponseMessageErrorCode}
    (h : decodeErrorCode c = .ok code) : c = code.tag := by
  rcases c with _ | _ | _ | c <;>
    simp only [decodeErrorCode] at h <;>
    first
      | (cases h; rfl)
      | exact absurd h (by simp)

theorem mkV2_ok {t : Nat} {r : Except ResponseMessageErrorCode α}
    {m : V2ResponseMessage α} (h : mkV2 t r = .ok m) :
    m.tag = t ∧ m.result = r := by
  rcases t with _ | _ | _ | t <;>
    simp only [mkV2] at h <;>
    first
      | (cases h; exact ⟨rfl, rfl⟩)
      | exact absurd h (by simp)

theorem mkV1_ok {t : Nat} {o : Option α} {m : V1ResponseMessage α}
    (h : mkV1 t o = .ok m) : m.tag = t ∧ m.option = o := by
  rcases t with _ | _ | _ | t <;>
    simp only [mkV1] at h <;>
    first
      | (cases h; exact ⟨rfl, rfl⟩)
      | exact absurd h (by simp)

theorem decodeV2_encodeV2 (r : V2ResponseMessage α) :
    decodeV2 (encodeV2 r) = .ok r := by
  cases r <;> rename_i res <;> cases res <;>
    first
      | rfl
      | (rename_i c; cases c <;> rfl)

theorem decodeV1_encodeV1 (m : V1ResponseMessage α) :
    decodeV1 (encodeV1 m) = .ok m := by
  cases m <;> rename_i o <;> cases o <;> rfl

theorem encodeV2_shape (m : V2ResponseMessage α) :
    encodeV2 m =
      match m.result with
      | .ok x => [Token.byte m.tag, Token.byte 0, Token.pay x]
      | .error c => [Token.byte m.tag, Token.byte 1, Token.byte c.tag] := rfl

theorem encodeV1_shape (m : V1ResponseMessage α) :
    encodeV1 m =
      match m.option with
      | none => [Token.byte m.tag, Token.byte 0]
      | some x => [Token.byte m.tag, Token.byte 1, Token.pay x] := rfl

theorem decodeV2_ok_canonical {ts : List (Token α)} {m : V2ResponseMessage α}
    (h : decodeV2 ts = .ok m) : ts = encodeV2 m := by
  unfold decodeV2 at h
  split at h
  · obtain ⟨ht, hr⟩ := mkV2_ok h
    rw [encodeV2_shape, ht, hr]
  · split at h
    · rename_i code hcode
      obtain ⟨ht, hr⟩ := mkV2_ok h
      rw [encodeV2_shape, ht, hr, decodeErrorCode_ok hcode]
    · exact absurd h (by simp)
  · exact absurd h (by simp)
  · exact absurd h (by simp)

theorem decodeV1_ok_canonical {ts : List (Token α)} {m : V1ResponseMessage α}
    (h : decodeV1 ts = .ok m) : ts = encodeV1 m := by
  unfold decodeV1 at h
  split at h
  · obtain ⟨ht, ho⟩ := mkV1_ok h
    rw [encodeV1_shape, ht, ho]
  · obtain ⟨ht, ho⟩ := mkV1_ok h
    rw [encodeV1_shape, ht, ho]
  · exact absurd h (by simp)
  · exact absurd h (by simp)

/-! ## The version bridge -/

theorem v1ToV2_v2ToV1_of_ok {r : V2ResponseMessage α} {x : α}
    (h : r.result = .ok x) : v1ToV2 (v2ToV1 r) = r := by
  cases r <;> rename_i res <;> cases res <;>
    simp_all [V2ResponseMessage.result, v2ToV1, v1ToV2]

theorem v1ToV2_v2ToV1_of_error {r : V2ResponseMessage α}
    {c : ResponseMessageErrorCode} (h : r.result = .error c) :
    v1ToV2 (v2ToV1 r) = r.withResult (.error .protocolV1EmptyResponse) := by
  cases r <;> rename_i res <;> cases res <;>
    simp_all [V2ResponseMessage.result, v2ToV1, v1ToV2, V2ResponseMessage.withResult]

theorem v2ToV1_option_of_error {r : V2ResponseMessage α}
    {c : ResponseMessageErrorCode} (h : r.result = .error c) :
    (v2ToV1 r).option = none := by
  cases r <;> rename_i res <;> cases res <;>
    simp_all [V2ResponseMessage.result, v2ToV1, V1ResponseMessage.option]

/-! ## Characterizing the handler paths -/

theorem write_response_eq (h : RequestResponseMessageHandler)
    (p : RequestResponseProtocol) (r : V2ResponseMessage α) :
    write_response h p r =
      if (wireBytes p r).length ≤ h.max_response_size then .ok (wireBytes p r)
      else .error maxSizeExceededError := by
  cases p <;> rfl

theorem write_response_ok {h : RequestResponseMessageHandler}
    {p : RequestResponseProtocol} {r : V2ResponseMessage α} {bs : List (Token α)}
    (hw : write_response h p r = .ok bs) :
    bs = wireBytes p r ∧ bs.length ≤ h.max_response_size := by
  rw [write_response_eq] at hw
  split at hw
  · cases hw
    exact ⟨rfl, by assumption⟩
  · exact absurd hw (by simp)

theorem read_response_wireBytes (h : RequestResponseMessageHandler)
    (p : RequestResponseProtocol) (r : V2ResponseMessage α)
    (hle : (wireBytes p r).length ≤ h.max_response_size) :
    read_response h p (wireBytes p r) =
      .ok (match p with | .V2 => r | .V1 => v1ToV2 (v2ToV1 r)) := by
  have hnl : ¬ h.max_response_size < (wireBytes p r).length := Nat.not_lt.mpr hle
  cases p <;>
    simp only [wireBytes] at hnl ⊢ <;>
    simp only [read_response] <;>
    rw [if_neg hnl] <;>
    simp [PostcardCodec.decode, v2Format, v1Format, decodeV2_encodeV2, decodeV1_encodeV1]

/-! ## Varint and request round trips -/

theorem varintDecode_encodeAux (fuel : Nat) :
    ∀ (n : Nat) (rest : List Nat), n ≤ fuel →
      varintDecode (varintEncodeAux fuel n ++ rest) = .ok (n, rest) := by
  induction fuel with
  | zero =>
    intro n rest hn
    have hn0 : n = 0 := Nat.le_zero.mp hn
    subst hn0
    rfl
  | succ fuel ih =>
    intro n rest hn
    by_cases hlt : n < 128
    · simp [varintEncodeAux, hlt, varintDecode]
    · have hdiv : n / 128 ≤ fuel := by omega
      have hmod : ¬ n % 128 + 128 < 128 := by omega
      simp only [varintEncodeAux, hlt, if_false, List.cons_append, varintDecode,
        hmod, ih (n / 128) rest hdiv]
      have : n % 128 + 128 - 128 + 128 * (n / 128) = n := by omega
      rw [this]

theorem varintDecode_encode (n : Nat) (rest : List Nat) :
    varintDecode (varintEncode n ++ rest) = .ok (n, rest) :=
  varintDecode_encodeAux n n rest (Nat.le_refl n)

theorem varintDecodeList_encode (xs : List Nat) (rest : List Nat) :
    varintDecodeList xs.length ((xs.map varintEncode).flatten ++ rest) =
      .ok (xs, rest) := by
  induction xs generalizing rest with
  | nil => rfl
  | cons x xs ih =>
    simp only [List.map_cons, List.flatten_cons, List.length_cons, List.append_assoc,
      varintDecodeList, varintDecode_encode, ih]

theorem decodeRequest_encodeRequest (m : RequestMessage) :
    decodeRequest (encodeRequest m) = .ok m := by
  cases m with
  | sealedHeaders r =>
    have h2 : varintDecodeList 2 (varintEncode r.start ++ varintEncode r.stop) =
        .ok ([r.start, r.stop], []) := by
      simpa using varintDecodeList_encode [r.start, r.stop] []
    simp [encodeRequest, decodeRequest, h2]
  | transactions r =>
    have h2 : varintDecodeList 2 (varintEncode r.start ++ varintEncode r.stop) =
        .ok ([r.start, r.stop], []) := by
      simpa using varintDecodeList_encode [r.start, r.stop] []
    simp [encodeRequest, decodeRequest, h2]
  | txPoolFullTransactions ids =>
    have hlist : varintDecodeList ids.length ((ids.map varintEncode).flatten) =
        .ok (ids, []) := by
      simpa using varintDecodeList_encode ids []
    simp [encodeRequest, decodeRequest, varintDecode_encode, hlist]

/-! ## Claim theorems -/

/-- Claim C1: for every V2 canonical response carrying a failure, with any
error code, a `write_response` / `read_response` round trip under protocol V1
yields the same variant carrying `Err(ProtocolV1EmptyResponse)` — every
specific error code collapses to the single generic legacy-absence code. -/
theorem v1_roundtrip_collapses_error_codes {α : Type}
    (h : RequestResponseMessageHandler) (r : V2ResponseMessage α)
    (code : ResponseMessageErrorCode) (bs : List (Token α))
    (hr : r.result = .error code) (hw : write_response h .V1 r = .ok bs) :
    read_response h .V1 bs =
      .ok (r.withResult (.error .protocolV1EmptyResponse)) := by
  obtain ⟨hbs, hlen⟩ := write_response_ok hw
  subst hbs
  rw [read_response_wireBytes h .V1 r hlen, v1ToV2_v2ToV1_of_error hr]

theorem v1_roundtrip_collapses_error_codes_witness :
    read_response (RequestResponseMessageHandler.new 1024 (by decide)) .V1
        [Token.byte 0, Token.byte 0] =
      .ok (V2ResponseMessage.sealedHeaders (α := Nat)
        (.error .protocolV1EmptyResponse)) :=
  v1_roundtrip_collapses_error_codes
    (RequestResponseMessageHandler.new 1024 (by decide))
    (.sealedHeaders (.error .requestedRangeTooLarge)) .requestedRangeTooLarge
    [Token.byte 0, Token.byte 0] rfl rfl

/-- Claim C2: for every V2 canonical response (success or failure, any error
code), a `write_response` / `read_response` round trip under protocol V2
returns the original value exactly, error codes preserved. -/
theorem v2_roundtrip_exact {α : Type} (h : RequestResponseMessageHandler)
    (r : V2ResponseMessage α) (bs : List (Token α))
    (hw : write_response h .V2 r = .ok bs) :
    read_response h .V2 bs = .ok r := by
  obtain ⟨hbs, hlen⟩ := write_response_ok hw
  subst hbs
  exact read_response_wireBytes h .V2 r hlen

theorem v2_roundtrip_exact_witness :
    read_response (RequestResponseMessageHandler.new 1024 (by decide)) .V2
        [Token.byte 1, Token.byte 1, Token.byte 1] =
      .ok (V2ResponseMessage.transactions (α := Nat)
        (.error .requestedRangeTooLarge)) :=
  v2_roundtrip_exact (RequestResponseMessageHandler.new 1024 (by decide))
    (.transactions (.error .requestedRangeTooLarge))
    [Token.byte 1, Token.byte 1, Token.byte 1] rfl

/-- Claim C3: for every V2 canonical success value, a `write_response` /
`read_response` round trip under protocol V1 returns the success unchanged —
the payload survives the downgrade/upgrade even though the V1 wire format has
no error channel. -/
theorem v1_roundtrip_preserves_success {α : Type}
    (h : RequestResponseMessageHandler) (r : V2ResponseMessage α) (x : α)
    (bs : List (Token α)) (hr : r.result = .ok x)
    (hw : write_response h .V1 r = .ok bs) :
    read_response h .V1 bs = .ok r := by
  obtain ⟨hbs, hlen⟩ := write_response_ok hw
  subst hbs
  rw [read_response_wireBytes h .V1 r hlen, v1ToV2_v2ToV1_of_ok hr]

theorem v1_roundtrip_preserves_success_witness :
    read_response (RequestResponseMessageHandler.new 1024 (by decide)) .V1
        [Token.byte 0, Token.byte 1, Token.pay (5 : Nat)] =
      .ok (V2ResponseMessage.sealedHeaders (.ok (5 : Nat))) :=
  v1_roundtrip_preserves_success
    (RequestResponseMessageHandler.new 1024 (by decide))
    (.sealedHeaders (.ok 5)) 5 [Token.byte 0, Token.byte 1, Token.pay 5] rfl rfl

/-- Claim C4: for every error code, the bytes produced by
`write_response(V1, Err(code))` decode, when deserialized directly as a
V1-shaped response (as an old V1 peer would), to the variant carrying the
absent value `None`. -/
theorem write_response_v1_wire_is_absent {α : Type}
    (h : RequestResponseMessageHandler) (r : V2ResponseMessage α)
    (code : ResponseMessageErrorCode) (bs : List (Token α))
    (hr : r.result = .error code) (hw : write_response h .V1 r = .ok bs) :
    h.codec.decode (v1Format α) bs = .ok (v2ToV1 r) ∧
      (v2ToV1 r).option = none := by
  obtain ⟨hbs, hlen⟩ := write_response_ok hw
  subst hbs
  exact ⟨by simp [wireBytes, PostcardCodec.decode, v1Format, decodeV1_encodeV1],
    v2ToV1_option_of_error hr⟩

theorem write_response_v1_wire_is_absent_witness :
    (RequestResponseMessageHandler.new 1024 (by decide)).codec.decode
        (v1Format Nat) [Token.byte 0, Token.byte 0] =
      .ok (.sealedHeaders none) ∧
      (V1ResponseMessage.sealedHeaders (α := Nat) none).option = none :=
  write_response_v1_wire_is_absent
    (RequestResponseMessageHandler.new 1024 (by decide))
    (.sealedHeaders (.error .protocolV1EmptyResponse)) .protocolV1EmptyResponse
    [Token.byte 0, Token.byte 0] rfl rfl

/-- Claim C5: any byte sequence that validly decodes as a V1-shaped response
is normalized by `read_response` under V1 via `Some(x) → Ok(x)` and
`None → Err(ProtocolV1EmptyResponse)`, and `ProtocolV1EmptyResponse` is the
only error code a V1-origin response can ever produce. -/
theorem read_response_v1_normalizes {α : Type}
    (h : RequestResponseMessageHandler) (bs : List (Token α))
    (m : V1ResponseMessage α) (hd : h.codec.decode (v1Format α) bs = .ok m)
    (hlen : bs.length ≤ h.max_response_size) :
    read_response h .V1 bs = .ok (v1ToV2 m)
    ∧ (∀ x, m.option = some x → (v1ToV2 m).result = .ok x)
    ∧ (m.option = none → (v1ToV2 m).result = .error .protocolV1EmptyResponse)
    ∧ (∀ c, (v1ToV2 m).result = .error c → c = .protocolV1EmptyResponse) := by
  refine ⟨?_, ?_, ?_, ?_⟩
  · have hdd : decodeV1 bs = .ok m := by
      revert hd
      simp [PostcardCodec.decode, v1Format]
      cases decodeV1 bs <;> simp
    simp [read_response, Nat.not_lt.mpr hlen, PostcardCodec.decode, v1Format, hdd]
  · intro x hx
    cases m <;> simp_all [V1ResponseMessage.option, v1ToV2, V2ResponseMessage.result]
  · intro hnone
    cases m <;> simp_all [V1ResponseMessage.option, v1ToV2, V2ResponseMessage.result]
  · intro c hc
    cases m <;> rename_i o <;> cases o <;>
      simp_all [V1ResponseMessage.option, v1ToV2, V2ResponseMessage.result]

theorem read_response_v1_normalizes_witness :
    read_response (RequestResponseMessageHandler.new 1024 (by decide)) .V1
        [Token.byte 1, Token.byte 1, Token.pay (7 : Nat)] =
      .ok (.transactions (.ok 7)) ∧
      (v1ToV2 (V1ResponseMessage.transactions (some (7 : Nat)))).result =
        .ok 7 :=
  ⟨(read_response_v1_normalizes (RequestResponseMessageHandler.new 1024 (by decide))
      [Token.byte 1, Token.byte 1, Token.pay (7 : Nat)]
      (.transactions (some 7)) rfl (by decide)).1,
    (read_response_v1_normalizes (RequestResponseMessageHandler.new 1024 (by decide))
      [Token.byte 1, Token.byte 1, Token.pay (7 : Nat)]
      (.transactions (some 7)) rfl (by decide)).2.1 7 rfl⟩

/-- Claim C6: for every response and both protocol versions, a wire encoding
whose length equals the configured maximum succeeds on both the
`write_response` and `read_response` paths, while one byte over the maximum
fails on both paths with the size-bound violation error, whose kind is
distinct from the `Other` kind used for codec failures. -/
theorem response_size_boundary {α : Type} (h : RequestResponseMessageHandler)
    (p : RequestResponseProtocol) (r : V2ResponseMessage α) :
    ((wireBytes p r).length = h.max_response_size →
      write_response h p r = .ok (wireBytes p r) ∧
      read_response h p (wireBytes p r) =
        .ok (match p with | .V2 => r | .V1 => v1ToV2 (v2ToV1 r)))
    ∧ ((wireBytes p r).length = h.max_response_size + 1 →
      write_response h p r = .error maxSizeExceededError ∧
      read_response h p (wireBytes p r) = .error maxSizeExceededError ∧
      maxSizeExceededError.kind ≠ IoErrorKind.other) := by
  constructor
  · intro heq
    have hle : (wireBytes p r).length ≤ h.max_response_size := Nat.le_of_eq heq
    refine ⟨by rw [write_response_eq, if_pos hle], ?_⟩
    cases p
    · exact read_response_wireBytes h .V1 r hle
    · exact read_response_wireBytes h .V2 r hle
  · intro heq
    have hgt : ¬ (wireBytes p r).length ≤ h.max_response_size := by omega
    have hlt : h.max_response_size < (wireBytes p r).length := by omega
    refine ⟨by rw [write_response_eq, if_neg hgt], ?_, by decide⟩
    simp only [wireBytes] at hlt ⊢
    cases p <;> simp [read_response, hlt]

theorem response_size_boundary_witness :
    write_response (RequestResponseMessageHandler.new 2 (by decide)) .V1
        (V2ResponseMessage.sealedHeaders (α := Nat) (.error .unknown)) =
      .ok [Token.byte 0, Token.byte 0] ∧
    write_response (RequestResponseMessageHandler.new 1 (by decide)) .V1
        (V2ResponseMessage.sealedHeaders (α := Nat) (.error .unknown)) =
      .error maxSizeExceededError :=
  ⟨((response_size_boundary (RequestResponseMessageHandler.new 2 (by decide)) .V1
      (V2ResponseMessage.sealedHeaders (α := Nat) (.error .unknown))).1
      (by decide)).1,
    ((response_size_boundary (RequestResponseMessageHandler.new 1 (by decide)) .V1
      (V2ResponseMessage.sealedHeaders (α := Nat) (.error .unknown))).2
      (by decide)).1⟩

/-- Claim C7: the codec's `encode` succeeds exactly when the underlying
format encoder succeeds and fails with an I/O-classified error otherwise;
`decode` succeeds exactly on byte sequences the underlying format accepts as
an encoding of the target type — for the shipped response formats, exactly
the canonical encodings — and fails with an I/O-classified error on anything
else. -/
theorem postcard_codec_contract {α σ : Type} (c : PostcardCodec)
    (f : WireFormat α σ) :
    (∀ (v : α) (bs : List σ), c.encode f v = .ok bs ↔ f.to_allocvec v = .ok bs)
    ∧ (∀ (v : α) (e : PostcardError), f.to_allocvec v = .error e →
        ∃ err : IoError, c.encode f v = .error err)
    ∧ (∀ (bs : List σ) (t : α), c.decode f bs = .ok t ↔ f.from_bytes bs = .ok t)
    ∧ (∀ (bs : List σ) (e : PostcardError), f.from_bytes bs = .error e →
        ∃ err : IoError, c.decode f bs = .error err)
    ∧ (∀ (bs : List (Token α)) (m : V1ResponseMessage α),
        c.decode (v1Format α) bs = .ok m ↔ bs = encodeV1 m)
    ∧ (∀ (bs : List (Token α)) (m : V2ResponseMessage α),
        c.decode (v2Format α) bs = .ok m ↔ bs = encodeV2 m) := by
  refine ⟨?_, ?_, ?_, ?_, ?_, ?_⟩
  · intro v bs
    rcases hv : f.to_allocvec v with e | b <;> simp [PostcardCodec.encode, hv]
  · intro v e hv
    exact ⟨⟨IoErrorKind.other, e.display⟩, by simp [PostcardCodec.encode, hv]⟩
  · intro bs t
    rcases hb : f.from_bytes bs with e | b <;> simp [PostcardCodec.decode, hb]
  · intro bs e hb
    exact ⟨⟨IoErrorKind.other, e.display⟩, by simp [PostcardCodec.decode, hb]⟩
  · intro bs m
    constructor
    · intro hok
      have hdd : decodeV1 bs = .ok m := by
        revert hok
        simp [PostcardCodec.decode, v1Format]
        cases decodeV1 bs <;> simp
      exact decodeV1_ok_canonical hdd
    · intro hbs
      subst hbs
      simp [PostcardCodec.decode, v1Format, decodeV1_encodeV1]
  · intro bs m
    constructor
    · intro hok
      have hdd : decodeV2 bs = .ok m := by
        revert hok
        simp [PostcardCodec.decode, v2Format]
        cases decodeV2 bs <;> simp
      exact decodeV2_ok_canonical hdd
    · intro hbs
      subst hbs
      simp [PostcardCodec.decode, v2Format, decodeV2_encodeV2]

theorem postcard_codec_contract_witness :
    PostcardCodec.mk.encode requestFormat (.transactions ⟨2, 6⟩) =
      .ok [1, 2, 6]
    ∧ (∃ err : IoError, PostcardCodec.mk.encode failingFormat () = .error err)
    ∧ (∃ err : IoError, PostcardCodec.mk.decode requestFormat [] = .error err)
    ∧ PostcardCodec.mk.decode (v1Format Nat) [Token.byte 0, Token.byte 0] =
      .ok (.sealedHeaders none) :=
  ⟨((postcard_codec_contract PostcardCodec.mk requestFormat).1
      (.transactions ⟨2, 6⟩) [1, 2, 6]).mpr rfl,
    (postcard_codec_contract PostcardCodec.mk failingFormat).2.1 ()
      .serializeBufferFull rfl,
    (postcard_codec_contract PostcardCodec.mk requestFormat).2.2.2.1 []
      .deserializeUnexpectedEnd rfl,
    ((postcard_codec_contract (α := Nat) (σ := Nat) PostcardCodec.mk
        ⟨fun n => .ok [n], fun _ => .error .deserializeBadEncoding⟩).2.2.2.2.1
      [Token.byte 0, Token.byte 0] (.sealedHeaders none)).mpr rfl⟩

/-- Claim C8: for every valid request message, decoding the bytes produced by
encoding it through the postcard codec yields the original message. -/
theorem request_roundtrip (m : RequestMessage) (hv : m.valid) (bs : List Nat)
    (he : PostcardCodec.mk.encode requestFormat m = .ok bs) :
    PostcardCodec.mk.decode requestFormat bs = .ok m := by
  have hbs : encodeRequest m = bs := by
    simpa [PostcardCodec.encode, requestFormat] using he
  subst hbs
  simp [PostcardCodec.decode, requestFormat, decodeRequest_encodeRequest]

theorem request_roundtrip_witness :
    PostcardCodec.mk.decode requestFormat [1, 2, 6] =
      .ok (.transactions ⟨2, 6⟩) :=
  request_roundtrip (.transactions ⟨2, 6⟩) (by decide) [1, 2, 6] rfl

/-- Claim C9: the encoded byte length of a range-style transactions request
over the range 2..6 is at most the configured maximum request size of 1024
bytes. -/
theorem request_size_fits :
    (encodeRequest (.transactions ⟨2, 6⟩)).length ≤ MAX_REQUEST_SIZE := by
  decide

/-- Claim C10: whenever the codec's encode or decode fails, the returned
error has kind `Other` and carries the display text of the underlying
postcard error — all codec-level failures collapse to this single error
kind. -/
theorem codec_failures_collapse_to_other_kind {α σ : Type} (c : PostcardCodec)
    (f : WireFormat α σ) :
    (∀ (v : α) (e : PostcardError), f.to_allocvec v = .error e →
      c.encode f v = .error ⟨IoErrorKind.other, e.display⟩)
    ∧ (∀ (bs : List σ) (e : PostcardError), f.from_bytes bs = .error e →
      c.decode f bs = .error ⟨IoErrorKind.other, e.display⟩) := by
  constructor
  · intro v e hv
    simp [PostcardCodec.encode, hv]
  · intro bs e hb
    simp [PostcardCodec.decode, hb]

theorem codec_failures_collapse_to_other_kind_witness :
    PostcardCodec.mk.decode (v1Format Nat) [] =
      .error ⟨IoErrorKind.other, "Hit the end of buffer, expected more data"⟩
    ∧ PostcardCodec.mk.encode failingFormat () =
      .error ⟨IoErrorKind.other, "The serialization buffer is full"⟩ :=
  ⟨(codec_failures_collapse_to_other_kind PostcardCodec.mk (v1Format Nat)).2 []
      .deserializeUnexpectedEnd rfl,
    (codec_failures_collapse_to_other_kind PostcardCodec.mk failingFormat).1 ()
      .serializeBufferFull rfl⟩

end FuelP2P
